import Mathlib

/-!
Verification of `client/coverage_data.py` (pyre-check coverage tooling).

This file gives a shallow embedding of the data model and operations of the
coverage-data module: annotation-kind computation for function definitions,
the traversal context, the strict/unsafe module-mode collector with its
comment regexes, the suppression-directive parser, the per-kind suppression
count fold (modelled from the spec, since that collector's code is not in
the source snapshot), the module line-count rule, and path collection.

Machine strings are embedded as Lean `String`/`List Char`; the concrete
regular expressions of the source are embedded as executable matchers that
reproduce the (deterministic) backtracking behaviour of `re.match` on those
specific patterns.  Python integers are embedded as `Int` where subtraction
below zero is possible.
-/

/-- Source position: 1-indexed line, 0-indexed column (LibCST convention). -/
structure CodePosition where
  line : Nat
  column : Nat
deriving DecidableEq, Repr

/-- A source range; LibCST calls the second field `end`, a Lean keyword. -/
structure CodeRange where
  start : CodePosition
  stop : CodePosition
deriving DecidableEq, Repr

/-- `libcst.Param`, reduced to the one field `from_function_data` inspects:
the optional annotation node (the source only tests `annotation is not None`).
The field is called `annot` in Lean. -/
structure Param where
  annot : Option Unit
deriving DecidableEq, Repr

/-- `FunctionAnnotationKind` from `coverage_data.py`. -/
inductive FunctionAnnotationKind
  | NOT_ANNOTATED
  | PARTIALLY_ANNOTATED
  | FULLY_ANNOTATED
deriving DecidableEq, Repr

/-- `FunctionAnnotationKind.from_function_data`. -/
def FunctionAnnotationKind.from_function_data (is_non_static_method : Bool)
    (is_return_annotated : Bool) (parameters : List Param) :
    FunctionAnnotationKind :=
  if is_return_annotated then
    let parameters_requiring :=
      if is_non_static_method then parameters.drop 1 else parameters
    let all_parameters_annotated :=
      parameters_requiring.all fun parameter => parameter.annot.isSome
    if all_parameters_annotated then .FULLY_ANNOTATED else .PARTIALLY_ANNOTATED
  else
    let any_parameter_annotated :=
      parameters.any fun parameter => parameter.annot.isSome
    if any_parameter_annotated then .PARTIALLY_ANNOTATED else .NOT_ANNOTATED

/-! ## Character-level regex matchers

The strictness collector compiles four anchored patterns; the suppression
collector uses three more.  Each is embedded as a deterministic matcher on
`List Char`: on these patterns, greedy matching with backtracking is
equivalent to the maximal-munch scans below. -/

/-- Drop leading space characters (the regex fragment " *"). -/
def dropSpaces : List Char → List Char
  | ' ' :: rest => dropSpaces rest
  | cs => cs

/-- Drop leading hash marks (the extra repetitions of the fragment "#+"). -/
def dropExtraHashes : List Char → List Char
  | '#' :: rest => dropExtraHashes rest
  | cs => cs

/-- Remove an exact literal from the front, returning the remainder. -/
def stripLitChars : List Char → List Char → Option (List Char)
  | [], cs => some cs
  | _ :: _, [] => none
  | p :: ps, c :: cs => if p = c then stripLitChars ps cs else none

/-- Remainder of `s` after the regex fragment " ?#+ *": an optional single
space, one or more hash marks, then any number of spaces.  `none` when the
mandatory hash marks are missing. -/
def afterHashMarks (s : String) : Option (List Char) :=
  let cs :=
    match s.data with
    | ' ' :: rest => rest
    | other => other
  match cs with
  | '#' :: rest => some (dropSpaces (dropExtraHashes rest))
  | _ => none

/-- Remainder of `s` after matching " ?#+ *" followed by the literal `lit`
(`re.match` of the strictness patterns, which are all anchored like this). -/
def litRemainder (lit : String) (s : String) : Option (List Char) :=
  match afterHashMarks s with
  | some rem => stripLitChars lit.data rem
  | none => none

/-- `StrictCountCollector.strict_regex`: " ?#+ *pyre-strict". -/
def strictRegexTest (s : String) : Bool :=
  (litRemainder "pyre-strict" s).isSome

/-- `StrictCountCollector.unsafe_regex`: " ?#+ *pyre-unsafe". -/
def unsafeRegexTest (s : String) : Bool :=
  (litRemainder "pyre-unsafe" s).isSome

/-- `StrictCountCollector.ignore_all_regex`: " ?#+ *pyre-ignore-all-errors". -/
def ignoreAllRegexTest (s : String) : Bool :=
  (litRemainder "pyre-ignore-all-errors" s).isSome

/-- Tail of the code-bracket regex fragment "[0-9, ]*\x5d": any run of
digits, commas and spaces followed by a closing bracket. -/
def codeBracketTail : List Char → Bool
  | [] => false
  | c :: rest =>
    if c.isDigit || c = ',' || c = ' ' then codeBracketTail rest else c = ']'

/-- The bracket fragment "\x5b[0-9]+[0-9, ]*\x5d" of
`ignore_all_by_code_regex`: an opening bracket, at least one digit first,
then digits/commas/spaces up to a closing bracket. -/
def matchesCodeBracket : List Char → Bool
  | '[' :: rest =>
    match rest with
    | c :: _ => c.isDigit && codeBracketTail rest
    | [] => false
  | _ => false

/-- `StrictCountCollector.ignore_all_by_code_regex`:
" ?#+ *pyre-ignore-all-errors\x5b[0-9]+[0-9, ]*\x5d". -/
def ignoreAllByCodeRegexTest (s : String) : Bool :=
  match litRemainder "pyre-ignore-all-errors" s with
  | some rest => matchesCodeBracket rest
  | none => false

/-! ## The strictness collector (`StrictCountCollector`) -/

/-- `ModuleMode` from `coverage_data.py`. -/
inductive ModuleMode
  | UNSAFE
  | STRICT
  | IGNORE_ALL
deriving DecidableEq, Repr

/-- `ModuleStrictData`. -/
structure ModuleStrictData where
  mode : ModuleMode
  explicit_comment_line : Option Nat
deriving DecidableEq, Repr

/-- A `libcst.Comment` together with the start line its position metadata
reports (the only position datum the strictness collector reads). -/
structure Comment where
  line : Nat
  value : String
deriving DecidableEq, Repr

/-- Mutable state of `StrictCountCollector` (the two `_count` fields are
only incremented once per module and are omitted). -/
structure StrictCountCollector where
  strict_by_default : Bool
  explicit_strict_comment_line : Option Nat := none
  explicit_unsafe_comment_line : Option Nat := none
deriving DecidableEq, Repr

/-- `StrictCountCollector.visit_Comment`. -/
def StrictCountCollector.visit_Comment (self : StrictCountCollector)
    (node : Comment) : StrictCountCollector :=
  if strictRegexTest node.value then
    { self with explicit_strict_comment_line := some node.line }
  else if unsafeRegexTest node.value then
    { self with explicit_unsafe_comment_line := some node.line }
  else if ignoreAllRegexTest node.value && !ignoreAllByCodeRegexTest node.value then
    { self with explicit_unsafe_comment_line := some node.line }
  else
    self

/-- `StrictCountCollector.is_unsafe_module`. -/
def StrictCountCollector.is_unsafe_module (self : StrictCountCollector) : Bool :=
  if self.explicit_unsafe_comment_line.isSome then true
  else if self.explicit_strict_comment_line.isSome || self.strict_by_default then false
  else true

/-- `StrictCountCollector.collect`: visit every comment of the module in
top-to-bottom traversal order, then resolve the module mode. -/
def StrictCountCollector.collect (strict_by_default : Bool)
    (comments : List Comment) : ModuleStrictData :=
  let final :=
    comments.foldl StrictCountCollector.visit_Comment
      { strict_by_default := strict_by_default }
  { mode := if final.is_unsafe_module then ModuleMode.UNSAFE else ModuleMode.STRICT
    explicit_comment_line :=
      if final.is_unsafe_module then final.explicit_unsafe_comment_line
      else final.explicit_strict_comment_line }

/-- A comment classified as a strict directive (first branch of
`visit_Comment`). -/
def isStrictComment (c : Comment) : Bool :=
  strictRegexTest c.value

/-- A comment classified as an unsafe directive: the unsafe pattern, or the
ignore-all pattern without a bracketed code list (second and third branches
of `visit_Comment`). -/
def isUnsafeComment (c : Comment) : Bool :=
  unsafeRegexTest c.value ||
    (ignoreAllRegexTest c.value && !ignoreAllByCodeRegexTest c.value)

/-- Line of the last comment in the list satisfying `p`, if any. -/
def lastMatchLine (p : Comment → Bool) : List Comment → Option Nat
  | [] => none
  | c :: rest => (lastMatchLine p rest).or (if p c then some c.line else none)

/-- The collector state after the comment traversal of one module. -/
def finalCollector (strict_by_default : Bool) (comments : List Comment) :
    StrictCountCollector :=
  comments.foldl StrictCountCollector.visit_Comment
    { strict_by_default := strict_by_default }

/-! ## Traversal context (`AnnotationContext`) and the annotation collector -/

/-- A decorator expression: the source only distinguishes plain `Name`
nodes (whose string value it compares to "staticmethod") from everything
else. -/
inductive DecoratorExpr
  | name (value : String)
  | other
deriving DecidableEq, Repr

/-- A `libcst.FunctionDef`, reduced to the fields the context reads. -/
structure FunctionDef where
  name : String
  decorators : List DecoratorExpr
deriving DecidableEq, Repr

/-- A `libcst.ClassDef`, reduced to its name. -/
structure ClassDef where
  name : String
deriving DecidableEq, Repr

/-- `AnnotationContext`.  Depths are Python ints, hence `Int`. -/
structure AnnotationContext where
  class_name_stack : List String
  define_depth : Int
  static_define_depth : Int
deriving DecidableEq, Repr

/-- `AnnotationContext._define_includes_staticmethod`: the loop with an
early return is equivalent to `List.any`. -/
def AnnotationContext.define_includes_staticmethod (define : FunctionDef) : Bool :=
  define.decorators.any fun decorator =>
    match decorator with
    | .name value => value = "staticmethod"
    | .other => false

/-- `AnnotationContext.update_for_enter_define`. -/
def AnnotationContext.update_for_enter_define (self : AnnotationContext)
    (define : FunctionDef) : AnnotationContext :=
  let stepped := { self with define_depth := self.define_depth + 1 }
  if AnnotationContext.define_includes_staticmethod define then
    { stepped with static_define_depth := stepped.static_define_depth + 1 }
  else
    stepped

/-- `AnnotationContext.update_for_exit_define`. -/
def AnnotationContext.update_for_exit_define (self : AnnotationContext)
    (define : FunctionDef) : AnnotationContext :=
  let stepped := { self with define_depth := self.define_depth - 1 }
  if AnnotationContext.define_includes_staticmethod define then
    { stepped with static_define_depth := stepped.static_define_depth - 1 }
  else
    stepped

/-- `AnnotationContext.update_for_enter_class`: Python `list.append`. -/
def AnnotationContext.update_for_enter_class (self : AnnotationContext)
    (classdef : ClassDef) : AnnotationContext :=
  { self with class_name_stack := self.class_name_stack ++ [classdef.name] }

/-- `AnnotationContext.update_for_exit_class`: Python `list.pop`. -/
def AnnotationContext.update_for_exit_class (self : AnnotationContext) :
    AnnotationContext :=
  { self with class_name_stack := self.class_name_stack.dropLast }

/-- A balanced module body as traversed by the LibCST visitor: function and
class definitions introduce nested bodies; `seq` chains siblings; `leaf`
stands for any statement that does not touch the context. -/
inductive PyTree
  | leaf
  | seq (first second : PyTree)
  | underDef (define : FunctionDef) (body : PyTree)
  | underClass (classdef : ClassDef) (body : PyTree)
deriving DecidableEq, Repr

/-- The context updates performed by a balanced enter/exit traversal:
`visit_FunctionDef`/`leave_FunctionDef` and `visit_ClassDef`/`leave_ClassDef`
call the four mutators symmetrically around each nested body. -/
def AnnotationContext.walk : AnnotationContext → PyTree → AnnotationContext
  | ctx, .leaf => ctx
  | ctx, .seq a b => (ctx.walk a).walk b
  | ctx, .underDef d body =>
    ((ctx.update_for_enter_define d).walk body).update_for_exit_define d
  | ctx, .underClass c body =>
    ((ctx.update_for_enter_class c).walk body).update_for_exit_class

/-- The module node data read by `AnnotationCollector.leave_Module`: the end
line of the module metadata range and `Module.has_trailing_newline`. -/
structure ModuleNode where
  end_line : Nat
  has_trailing_newline : Bool
deriving DecidableEq, Repr

/-- `AnnotationCollector` state, reduced to the fields the verified claims
read: the traversal context and `line_count` (a Python int). -/
structure AnnotationCollector where
  context : AnnotationContext
  line_count : Int
deriving DecidableEq, Repr

/-- The initial collector: empty context, `line_count = 0`. -/
def AnnotationCollector.init : AnnotationCollector :=
  { context := { class_name_stack := [], define_depth := 0, static_define_depth := 0 }
    line_count := 0 }

/-- Visiting the module body: only the context changes; no visitor callback
other than `leave_Module` writes `line_count`. -/
def AnnotationCollector.visitBody (self : AnnotationCollector) (tree : PyTree) :
    AnnotationCollector :=
  { self with context := self.context.walk tree }

/-- `AnnotationCollector.leave_Module`. -/
def AnnotationCollector.leave_Module (self : AnnotationCollector)
    (original_node : ModuleNode) : AnnotationCollector :=
  if original_node.has_trailing_newline then
    { self with line_count := (original_node.end_line : Int) }
  else
    { self with line_count := (original_node.end_line : Int) - 1 }

/-- A full traversal of one module: body first, then `leave_Module`. -/
def AnnotationCollector.collectModule (tree : PyTree) (module : ModuleNode) :
    AnnotationCollector :=
  (AnnotationCollector.init.visitBody tree).leave_Module module

/-! ## Suppression directives (`SuppressionCollector`)

The three suppression regexes all have the shape ".*# *MARKER..." and are
applied with `re.match`.  The greedy ".*" makes the match anchor at the
last position where "# *MARKER" succeeds; the optional code-bracket group
of the fixme/ignore patterns participates only when a well-formed bracket
immediately follows the marker. -/

/-- `SuppressionKind`. -/
inductive SuppressionKind
  | PYRE_FIXME
  | PYRE_IGNORE
  | TYPE_IGNORE
deriving DecidableEq, Repr

/-- `TypeErrorSuppression`. -/
structure TypeErrorSuppression where
  kind : SuppressionKind
  code_range : CodeRange
  error_codes : Option (List Int)
deriving DecidableEq, Repr

/-- The regex fragment "# *MARKER" at the current position: a hash mark,
any number of spaces, then the literal marker; returns the remainder. -/
def matchMarkerFrom (marker : List Char) : List Char → Option (List Char)
  | '#' :: rest => stripLitChars marker (dropSpaces rest)
  | _ => none

/-- The remainder after ".*# *MARKER" under greedy ".*": the remainder at
the LAST position of `cs` where "# *MARKER" matches (later positions are
tried first, mirroring greedy backtracking). -/
def lastMarkerRemainder (marker : List Char) : List Char → Option (List Char)
  | [] => none
  | c :: rest =>
    match lastMarkerRemainder marker rest with
    | some r => some r
    | none => matchMarkerFrom marker (c :: rest)

/-- Characters allowed inside the optional code group
"(\x5b(\d* *,? *)*\x5d)?": digits, spaces and commas. -/
def isCodeGroupChar (c : Char) : Bool :=
  c.isDigit || c = ' ' || c = ','

/-- The optional capture group "(\x5b(\d* *,? *)*\x5d)?" right after the
marker: it participates exactly when an opening bracket, a run of
digits/spaces/commas, and a closing bracket follow; the captured text
includes the brackets. -/
def bracketGroup (cs : List Char) : Option (List Char) :=
  match cs with
  | '[' :: rest =>
    match rest.dropWhile isCodeGroupChar with
    | ']' :: _ => some ('[' :: (rest.takeWhile isCodeGroupChar ++ [']']))
    | _ => none
  | _ => none

/-- Python `str.strip("[] ")`: remove brackets and spaces from both ends. -/
def pyStripBracketsSpaces (cs : List Char) : List Char :=
  let isStripped := fun c => c = '[' || c = ']' || c = ' '
  ((cs.dropWhile isStripped).reverse.dropWhile isStripped).reverse

/-- Python `str.split(",")`: always a non-empty list of pieces. -/
def splitOnComma : List Char → List (List Char)
  | [] => [[]]
  | c :: rest =>
    if c = ',' then [] :: splitOnComma rest
    else
      match splitOnComma rest with
      | piece :: pieces => (c :: piece) :: pieces
      | [] => [[c]]

/-- Value of a non-empty all-digit string. -/
def digitsVal (ds : List Char) : Option Nat :=
  if ds.isEmpty then none
  else if ds.all Char.isDigit then
    some (ds.foldl (fun acc c => acc * 10 + (c.toNat - '0'.toNat)) 0)
  else none

/-- Python `int(str)` on the strings reachable here: surrounding spaces are
stripped, an optional sign is allowed, and the rest must be a non-empty
digit string; `none` models the `ValueError`. -/
def pyInt (cs : List Char) : Option Int :=
  let t := ((cs.dropWhile (· = ' ')).reverse.dropWhile (· = ' ')).reverse
  match t with
  | '+' :: ds => (digitsVal ds).map fun n => (n : Int)
  | '-' :: ds => (digitsVal ds).map fun n => -(n : Int)
  | ds => (digitsVal ds).map fun n => (n : Int)

/-- The Python `[int(code) for code in code_strings]` inside `try`: all
pieces parse, or the whole comprehension fails with `ValueError`. -/
def parseAllInts : List (List Char) → Option (List Int)
  | [] => some []
  | piece :: rest =>
    match pyInt piece, parseAllInts rest with
    | some v, some vs => some (v :: vs)
    | _, _ => none

/-- `SuppressionCollector._error_codes_from_re_group`: `none` when the
pattern has no group or the group did not participate; on a captured group,
strip brackets/spaces, split on commas, parse every piece as an int, and
fall back to `some []` when any piece fails. -/
def error_codes_from_re_group (groups : List (Option (List Char))) :
    Option (List Int) :=
  let code_group :=
    match groups with
    | [] => none
    | g :: _ => g
  match code_group with
  | none => none
  | some g =>
    match parseAllInts (splitOnComma (pyStripBracketsSpaces g)) with
    | some codes => some codes
    | none => some []

/-- The literal marker of each suppression regex. -/
def suppressionMarker : SuppressionKind → List Char
  | .PYRE_FIXME => "pyre-fixme".data
  | .PYRE_IGNORE => "pyre-ignore".data
  | .TYPE_IGNORE => "type: ignore".data

/-- Match result of one suppression regex against a comment's text:
`none` when the regex does not match; otherwise the list of capture
groups (one optional group for fixme/ignore, no groups for type-ignore). -/
def suppressionRegexGroups (kind : SuppressionKind) (s : String) :
    Option (List (Option (List Char))) :=
  match kind with
  | .PYRE_FIXME =>
    (lastMarkerRemainder (suppressionMarker .PYRE_FIXME) s.data).map
      fun rem => [bracketGroup rem]
  | .PYRE_IGNORE =>
    (lastMarkerRemainder (suppressionMarker .PYRE_IGNORE) s.data).map
      fun rem => [bracketGroup rem]
  | .TYPE_IGNORE =>
    (lastMarkerRemainder (suppressionMarker .TYPE_IGNORE) s.data).map
      fun _ => []

/-- A comment node as seen by `SuppressionCollector`: its metadata range
and its text. -/
structure CommentNode where
  code_range : CodeRange
  value : String
deriving DecidableEq, Repr

/-- `SuppressionCollector.suppression_from_comment`: one suppression per
matching regex, in the insertion order of `suppression_regexes`. -/
def suppression_from_comment (node : CommentNode) : List TypeErrorSuppression :=
  [SuppressionKind.PYRE_FIXME, SuppressionKind.PYRE_IGNORE,
    SuppressionKind.TYPE_IGNORE].filterMap fun kind =>
    (suppressionRegexGroups kind node.value).map fun groups =>
      { kind := kind
        code_range := node.code_range
        error_codes := error_codes_from_re_group groups }

/-! ## The per-kind suppression count fold -/

/-- Start line of a suppression directive. -/
def TypeErrorSuppression.line (s : TypeErrorSuppression) : Nat :=
  s.code_range.start.line

/-- Modelled from the spec: the output of `SuppressionCountCollector`
(`FixmeCountCollector` / `IgnoreCountCollector` in the tests), whose code
is not part of the source snapshot — a per-code line registry `code` and a
list `no_code` of lines whose directive had no parseable code. -/
structure SuppressionCountResult where
  code : Int → List Nat
  no_code : List Nat

/-- Modelled from the spec: folding one directive.  A directive with falsy
`codes` (`None` or the empty list) appends its line to `no_code`; a
directive with non-empty `codes` appends its line once per code occurrence
into that code's registry. -/
def addSuppression (acc : SuppressionCountResult) (s : TypeErrorSuppression) :
    SuppressionCountResult :=
  match s.error_codes with
  | none => { acc with no_code := acc.no_code ++ [s.line] }
  | some [] => { acc with no_code := acc.no_code ++ [s.line] }
  | some codes =>
    { acc with
      code := codes.foldl
        (fun registry c =>
          fun c2 => if c2 = c then registry c2 ++ [s.line] else registry c2)
        acc.code }

/-- Modelled from the spec: `SuppressionCountCollector(kind)` folds all
directives of its kind, in traversal (top-to-bottom) order. -/
def suppressionCountCollect (kind : SuppressionKind)
    (sups : List TypeErrorSuppression) : SuppressionCountResult :=
  (sups.filter fun s => s.kind = kind).foldl addSuppression
    { code := fun _ => [], no_code := [] }

/-- The codes a directive carries, with `None` collapsed to the empty list
(exactly the directives whose registry contribution is `no_code`). -/
def suppressionCodes (s : TypeErrorSuppression) : List Int :=
  match s.error_codes with
  | none => []
  | some codes => codes

/-! ## Path collection (`get_paths_to_collect`) -/

/-- An idealized `pathlib.Path`: an absolute flag plus components (no
normalization of "." / ".." is modelled; the source performs none). -/
structure PyPath where
  absolute : Bool
  parts : List String
deriving DecidableEq, Repr

/-- `Path.cwd() / path` for a relative `path`: components concatenate. -/
def pathJoin (a b : PyPath) : PyPath :=
  if b.absolute then b else { absolute := a.absolute, parts := a.parts ++ b.parts }

/-- `path if path.is_absolute() else Path.cwd() / path`. -/
def resolvePath (cwd p : PyPath) : PyPath :=
  if p.absolute then p else pathJoin cwd p

/-- `root in absolute_path.parents`: the parents of a path are its proper
ancestors, so membership says `root` has the same absoluteness and its
components are a proper prefix of the path's components. -/
def inParents (root ap : PyPath) : Bool :=
  root.absolute = ap.absolute && root.parts.isPrefixOf ap.parts &&
    root.parts ≠ ap.parts

/-- The `for` loop of `get_paths_to_collect`: resolve each path, raise
(`Except.error` carries the offending input path) when it is not nested
under the root, and insert it into the deduplicating set otherwise. -/
def collectLoop (cwd root : PyPath) :
    List PyPath → Finset PyPath → Except PyPath (Finset PyPath)
  | [], acc => .ok acc
  | p :: rest, acc =>
    let absolute_path := resolvePath cwd p
    if inParents root absolute_path then
      collectLoop cwd root rest (insert absolute_path acc)
    else
      .error p

/-- `get_paths_to_collect`.  The current working directory, read by the
source via `Path.cwd()`, is passed explicitly. -/
def get_paths_to_collect (cwd : PyPath) (paths : Option (List PyPath))
    (root : PyPath) : Except PyPath (Finset PyPath) :=
  match paths with
  | none => .ok {root}
  | some given => collectLoop cwd root given ∅

/-! ## Theorems -/

/-- Unfolding lemma for `from_function_data`. -/
theorem from_function_data_eq (m r : Bool) (ps : List Param) :
    FunctionAnnotationKind.from_function_data m r ps =
      if r then
        if (if m then ps.drop 1 else ps).all (fun p => p.annot.isSome) then
          .FULLY_ANNOTATED
        else .PARTIALLY_ANNOTATED
      else
        if ps.any (fun p => p.annot.isSome) then .PARTIALLY_ANNOTATED
        else .NOT_ANNOTATED := rfl

/-- C1: if the return is annotated, the kind is FULLY_ANNOTATED iff every
parameter in `required` (all parameters, minus the first for a non-static
method) is annotated, and PARTIALLY_ANNOTATED otherwise; if the return is
not annotated, the kind is PARTIALLY_ANNOTATED iff any parameter at all —
the first parameter of a method included — is annotated, and NOT_ANNOTATED
otherwise. -/
theorem claim_C1_annotation_kind (is_non_static_method is_return_annotated : Bool)
    (parameters : List Param) :
    (is_return_annotated = true →
      ((FunctionAnnotationKind.from_function_data is_non_static_method
          is_return_annotated parameters = .FULLY_ANNOTATED) ↔
        (∀ p ∈ (if is_non_static_method then parameters.drop 1 else parameters),
          p.annot.isSome = true)) ∧
      ((FunctionAnnotationKind.from_function_data is_non_static_method
          is_return_annotated parameters = .PARTIALLY_ANNOTATED) ↔
        ¬ (∀ p ∈ (if is_non_static_method then parameters.drop 1 else parameters),
          p.annot.isSome = true))) ∧
    (is_return_annotated = false →
      ((FunctionAnnotationKind.from_function_data is_non_static_method
          is_return_annotated parameters = .PARTIALLY_ANNOTATED) ↔
        ∃ p ∈ parameters, p.annot.isSome = true) ∧
      ((FunctionAnnotationKind.from_function_data is_non_static_method
          is_return_annotated parameters = .NOT_ANNOTATED) ↔
        ¬ ∃ p ∈ parameters, p.annot.isSome = true)) := by
  constructor
  · rintro rfl
    rw [from_function_data_eq]
    simp only [if_true]
    by_cases h :
        ∀ p ∈ (if is_non_static_method then parameters.drop 1 else parameters),
          p.annot.isSome = true
    · rw [if_pos (List.all_eq_true.mpr h)]
      exact ⟨iff_of_true rfl h, iff_of_false (by decide) (not_not_intro h)⟩
    · rw [if_neg (fun hc => h (List.all_eq_true.mp hc))]
      exact ⟨iff_of_false (by decide) h, iff_of_true rfl h⟩
  · rintro rfl
    rw [from_function_data_eq]
    simp only [Bool.false_eq_true, if_false]
    by_cases h : ∃ p ∈ parameters, p.annot.isSome = true
    · rw [if_pos (List.any_eq_true.mpr h)]
      exact ⟨iff_of_true rfl h, iff_of_false (by decide) (not_not_intro h)⟩
    · rw [if_neg (fun hc => h (List.any_eq_true.mp hc))]
      exact ⟨iff_of_false (by decide) h, iff_of_true rfl h⟩

/-- Witness for C1 at a concrete non-static method with an unannotated
first parameter and an annotated second one. -/
theorem claim_C1_annotation_kind_witness :
    (FunctionAnnotationKind.from_function_data true true
        [⟨none⟩, ⟨some ()⟩] = .FULLY_ANNOTATED) ↔
      (∀ p ∈ (if true then ([⟨none⟩, ⟨some ()⟩] : List Param).drop 1
          else [⟨none⟩, ⟨some ()⟩]), p.annot.isSome = true) :=
  ((claim_C1_annotation_kind true true [⟨none⟩, ⟨some ()⟩]).1 rfl).1

/-- Removing a literal from the front succeeds exactly on extensions of it. -/
theorem stripLitChars_eq_some (lit : List Char) :
    ∀ cs r, stripLitChars lit cs = some r ↔ cs = lit ++ r := by
  induction lit with
  | nil =>
    intro cs r
    simp [stripLitChars]
  | cons p ps ih =>
    intro cs r
    cases cs with
    | nil => simp [stripLitChars]
    | cons c cs' =>
      simp only [stripLitChars]
      by_cases h : p = c
      · subst h
        simp [ih]
      · rw [if_neg h]
        simp only [List.cons_append, List.cons.injEq]
        constructor
        · intro hc
          cases hc
        · rintro ⟨h1, _⟩
          exact absurd h1.symm h

/-- Two anchored-literal patterns matching the same comment force the
shorter literal to be a prefix of the longer one. -/
theorem litRemainder_agree (lit1 lit2 : String) (s : String)
    (hle : lit1.data.length ≤ lit2.data.length)
    (h1 : (litRemainder lit1 s).isSome = true)
    (h2 : (litRemainder lit2 s).isSome = true) :
    lit1.data = lit2.data.take lit1.data.length := by
  unfold litRemainder at h1 h2
  cases hm : afterHashMarks s with
  | none =>
    rw [hm] at h1
    simp at h1
  | some rem =>
    rw [hm] at h1 h2
    obtain ⟨r1, hr1⟩ := Option.isSome_iff_exists.mp h1
    obtain ⟨r2, hr2⟩ := Option.isSome_iff_exists.mp h2
    have e1 := (stripLitChars_eq_some _ _ _).mp hr1
    have e2 := (stripLitChars_eq_some _ _ _).mp hr2
    have e : lit1.data ++ r1 = lit2.data ++ r2 := e1.symm.trans e2
    calc lit1.data
        = (lit1.data ++ r1).take lit1.data.length := (List.take_left _ _).symm
      _ = (lit2.data ++ r2).take lit1.data.length := by rw [e]
      _ = lit2.data.take lit1.data.length := List.take_append_of_le_length hle

/-- A strict directive comment never matches the unsafe pattern. -/
theorem strict_not_unsafe_regex (s : String) (h : strictRegexTest s = true) :
    unsafeRegexTest s = false := by
  by_contra hc
  have h2 : unsafeRegexTest s = true := by
    revert hc
    cases unsafeRegexTest s <;> simp
  have := litRemainder_agree "pyre-strict" "pyre-unsafe" s (by decide) h h2
  exact absurd this (by decide)

/-- A strict directive comment never matches the ignore-all pattern. -/
theorem strict_not_ignore_all (s : String) (h : strictRegexTest s = true) :
    ignoreAllRegexTest s = false := by
  by_contra hc
  have h2 : ignoreAllRegexTest s = true := by
    revert hc
    cases ignoreAllRegexTest s <;> simp
  have := litRemainder_agree "pyre-strict" "pyre-ignore-all-errors" s (by decide) h h2
  exact absurd this (by decide)

/-- An ignore-all directive comment never matches the unsafe pattern. -/
theorem ignore_all_not_unsafe_regex (s : String) (h : ignoreAllRegexTest s = true) :
    unsafeRegexTest s = false := by
  by_contra hc
  have h2 : unsafeRegexTest s = true := by
    revert hc
    cases unsafeRegexTest s <;> simp
  have := litRemainder_agree "pyre-unsafe" "pyre-ignore-all-errors" s (by decide) h2 h
  exact absurd this (by decide)

/-- An ignore-all directive comment never matches the strict pattern. -/
theorem ignore_all_not_strict (s : String) (h : ignoreAllRegexTest s = true) :
    strictRegexTest s = false := by
  by_contra hc
  have h2 : strictRegexTest s = true := by
    revert hc
    cases strictRegexTest s <;> simp
  have := litRemainder_agree "pyre-strict" "pyre-ignore-all-errors" s (by decide) h2 h
  exact absurd this (by decide)

/-- Effect of `visit_Comment` on the unsafe line: set to the comment's line
exactly on unsafe directives, untouched otherwise. -/
theorem visit_Comment_unsafe_line (self : StrictCountCollector) (c : Comment) :
    (self.visit_Comment c).explicit_unsafe_comment_line =
      if isUnsafeComment c then some c.line
      else self.explicit_unsafe_comment_line := by
  cases hs : strictRegexTest c.value with
  | true =>
    have hu := strict_not_unsafe_regex _ hs
    have hi := strict_not_ignore_all _ hs
    simp [StrictCountCollector.visit_Comment, isUnsafeComment, hs, hu, hi]
  | false =>
    cases hu : unsafeRegexTest c.value with
    | true => simp [StrictCountCollector.visit_Comment, isUnsafeComment, hs, hu]
    | false =>
      cases hi : (ignoreAllRegexTest c.value && !ignoreAllByCodeRegexTest c.value) with
      | true => simp [StrictCountCollector.visit_Comment, isUnsafeComment, hs, hu, hi]
      | false => simp [StrictCountCollector.visit_Comment, isUnsafeComment, hs, hu, hi]

/-- Effect of `visit_Comment` on the strict line: set to the comment's line
exactly on strict directives, untouched otherwise. -/
theorem visit_Comment_strict_line (self : StrictCountCollector) (c : Comment) :
    (self.visit_Comment c).explicit_strict_comment_line =
      if isStrictComment c then some c.line
      else self.explicit_strict_comment_line := by
  cases hs : strictRegexTest c.value with
  | true => simp [StrictCountCollector.visit_Comment, isStrictComment, hs]
  | false =>
    cases hu : unsafeRegexTest c.value with
    | true => simp [StrictCountCollector.visit_Comment, isStrictComment, hs, hu]
    | false =>
      cases hi : (ignoreAllRegexTest c.value && !ignoreAllByCodeRegexTest c.value) with
      | true => simp [StrictCountCollector.visit_Comment, isStrictComment, hs, hu, hi]
      | false => simp [StrictCountCollector.visit_Comment, isStrictComment, hs, hu, hi]

/-- `visit_Comment` never writes `strict_by_default`. -/
theorem visit_Comment_sbd (self : StrictCountCollector) (c : Comment) :
    (self.visit_Comment c).strict_by_default = self.strict_by_default := by
  unfold StrictCountCollector.visit_Comment
  split
  · rfl
  · split
    · rfl
    · split
      · rfl
      · rfl

/-- The folded unsafe line is the last unsafe directive's line, or the
initial field when there is none. -/
theorem foldl_visit_unsafe_line (comments : List Comment) :
    ∀ self : StrictCountCollector,
      (comments.foldl StrictCountCollector.visit_Comment self).explicit_unsafe_comment_line =
        (lastMatchLine isUnsafeComment comments).or
          self.explicit_unsafe_comment_line := by
  induction comments with
  | nil =>
    intro self
    simp [lastMatchLine]
  | cons c rest ih =>
    intro self
    simp only [List.foldl_cons, lastMatchLine]
    rw [ih, visit_Comment_unsafe_line]
    cases h : isUnsafeComment c with
    | false => cases lastMatchLine isUnsafeComment rest <;> simp [Option.or]
    | true => cases lastMatchLine isUnsafeComment rest <;> simp [Option.or]

/-- The folded strict line is the last strict directive's line, or the
initial field when there is none. -/
theorem foldl_visit_strict_line (comments : List Comment) :
    ∀ self : StrictCountCollector,
      (comments.foldl StrictCountCollector.visit_Comment self).explicit_strict_comment_line =
        (lastMatchLine isStrictComment comments).or
          self.explicit_strict_comment_line := by
  induction comments with
  | nil =>
    intro self
    simp [lastMatchLine]
  | cons c rest ih =>
    intro self
    simp only [List.foldl_cons, lastMatchLine]
    rw [ih, visit_Comment_strict_line]
    cases h : isStrictComment c with
    | false => cases lastMatchLine isStrictComment rest <;> simp [Option.or]
    | true => cases lastMatchLine isStrictComment rest <;> simp [Option.or]

/-- The fold preserves `strict_by_default`. -/
theorem foldl_visit_sbd (comments : List Comment) :
    ∀ self : StrictCountCollector,
      (comments.foldl StrictCountCollector.visit_Comment self).strict_by_default =
        self.strict_by_default := by
  induction comments with
  | nil => intro self; rfl
  | cons c rest ih =>
    intro self
    rw [List.foldl_cons, ih, visit_Comment_sbd]

/-- No comment matches iff `lastMatchLine` finds nothing. -/
theorem lastMatchLine_eq_none_iff (p : Comment → Bool) (comments : List Comment) :
    lastMatchLine p comments = none ↔ ∀ c ∈ comments, p c = false := by
  induction comments with
  | nil => simp [lastMatchLine]
  | cons c rest ih =>
    simp only [lastMatchLine, List.mem_cons]
    cases hl : lastMatchLine p rest with
    | some l =>
      simp only [Option.or]
      constructor
      · intro hc
        cases hc
      · intro h
        have : lastMatchLine p rest = none := ih.mpr fun x hx => h x (Or.inr hx)
        rw [hl] at this
        cases this
    | none =>
      simp only [Option.or]
      cases hc : p c with
      | true =>
        simp only [if_pos rfl]
        constructor
        · intro h
          cases h
        · intro h
          have := h c (Or.inl rfl)
          rw [hc] at this
          cases this
      | false =>
        simp only [Bool.false_eq_true, if_false]
        constructor
        · intro _ x hx
          rcases hx with rfl | hx
          · exact hc
          · exact ih.mp hl x hx
        · intro _
          trivial

/-- A found last-match line belongs to a matching comment of the list. -/
theorem lastMatchLine_some_spec (p : Comment → Bool) (comments : List Comment) :
    ∀ l, lastMatchLine p comments = some l →
      ∃ c ∈ comments, p c = true ∧ c.line = l := by
  induction comments with
  | nil =>
    intro l h
    cases h
  | cons c rest ih =>
    intro l h
    simp only [lastMatchLine] at h
    cases hl : lastMatchLine p rest with
    | some l' =>
      rw [hl] at h
      simp only [Option.or] at h
      obtain ⟨c', hc', hp', hline⟩ := ih l' hl
      cases h
      exact ⟨c', List.mem_cons_of_mem _ hc', hp', hline⟩
    | none =>
      rw [hl] at h
      simp only [Option.or] at h
      cases hc : p c with
      | true =>
        rw [hc] at h
        simp at h
        exact ⟨c, List.mem_cons_self _ _, hc, h⟩
      | false =>
        rw [hc] at h
        simp at h

/-- The resolved mode, in terms of the folded final state. -/
theorem collect_mode (sbd : Bool) (comments : List Comment) :
    (StrictCountCollector.collect sbd comments).mode =
      if (finalCollector sbd comments).is_unsafe_module then ModuleMode.UNSAFE
      else ModuleMode.STRICT := rfl

/-- The resolved directive line, in terms of the folded final state. -/
theorem collect_line (sbd : Bool) (comments : List Comment) :
    (StrictCountCollector.collect sbd comments).explicit_comment_line =
      if (finalCollector sbd comments).is_unsafe_module then
        (finalCollector sbd comments).explicit_unsafe_comment_line
      else (finalCollector sbd comments).explicit_strict_comment_line := rfl

/-- The final unsafe line is the last unsafe directive's line. -/
theorem finalCollector_unsafe_line (sbd : Bool) (comments : List Comment) :
    (finalCollector sbd comments).explicit_unsafe_comment_line =
      lastMatchLine isUnsafeComment comments := by
  unfold finalCollector
  rw [foldl_visit_unsafe_line]
  cases lastMatchLine isUnsafeComment comments <;> simp [Option.or]

/-- The final strict line is the last strict directive's line. -/
theorem finalCollector_strict_line (sbd : Bool) (comments : List Comment) :
    (finalCollector sbd comments).explicit_strict_comment_line =
      lastMatchLine isStrictComment comments := by
  unfold finalCollector
  rw [foldl_visit_strict_line]
  cases lastMatchLine isStrictComment comments <;> simp [Option.or]

/-- The final state keeps the supplied default. -/
theorem finalCollector_sbd (sbd : Bool) (comments : List Comment) :
    (finalCollector sbd comments).strict_by_default = sbd := by
  unfold finalCollector
  rw [foldl_visit_sbd]

/-- C2: for every module and default, an unsafe or codeless ignore-all
directive forces mode UNSAFE with an unsafe directive's line, regardless of
anything else (in particular even when a strict directive is also present
and `strict_by_default` is true); otherwise a strict directive or a true
default gives STRICT, with a strict comment's line or `none` when relying
purely on the default; otherwise UNSAFE with line `none`. -/
theorem claim_C2_module_mode (sbd : Bool) (comments : List Comment) :
    ((∃ c ∈ comments, isUnsafeComment c = true) →
      (StrictCountCollector.collect sbd comments).mode = ModuleMode.UNSAFE ∧
      ∃ c ∈ comments, isUnsafeComment c = true ∧
        (StrictCountCollector.collect sbd comments).explicit_comment_line =
          some c.line) ∧
    ((∀ c ∈ comments, isUnsafeComment c = false) →
      ((∃ c ∈ comments, isStrictComment c = true) ∨ sbd = true) →
      (StrictCountCollector.collect sbd comments).mode = ModuleMode.STRICT ∧
      ((∃ c ∈ comments, isStrictComment c = true) →
        ∃ c ∈ comments, isStrictComment c = true ∧
          (StrictCountCollector.collect sbd comments).explicit_comment_line =
            some c.line) ∧
      ((∀ c ∈ comments, isStrictComment c = false) →
        (StrictCountCollector.collect sbd comments).explicit_comment_line =
          none)) ∧
    ((∀ c ∈ comments, isUnsafeComment c = false) →
      (∀ c ∈ comments, isStrictComment c = false) → sbd = false →
      (StrictCountCollector.collect sbd comments).mode = ModuleMode.UNSAFE ∧
      (StrictCountCollector.collect sbd comments).explicit_comment_line =
        none) := by
  have hu := finalCollector_unsafe_line sbd comments
  have hs := finalCollector_strict_line sbd comments
  have hb := finalCollector_sbd sbd comments
  refine ⟨?_, ?_, ?_⟩
  · rintro ⟨c, hc, hpc⟩
    have hne : lastMatchLine isUnsafeComment comments ≠ none := by
      intro hn
      have := (lastMatchLine_eq_none_iff _ _).mp hn c hc
      rw [hpc] at this
      cases this
    obtain ⟨l, hl⟩ := Option.ne_none_iff_exists'.mp hne
    have hmod : (finalCollector sbd comments).is_unsafe_module = true := by
      unfold StrictCountCollector.is_unsafe_module
      rw [hu, hl]
      simp
    constructor
    · rw [collect_mode, hmod]
      simp
    · obtain ⟨c', hc', hp', hline⟩ := lastMatchLine_some_spec _ _ l hl
      refine ⟨c', hc', hp', ?_⟩
      rw [collect_line, hmod]
      simp [hu, hl, hline]
  · intro hnone hsome
    have hln : lastMatchLine isUnsafeComment comments = none :=
      (lastMatchLine_eq_none_iff _ _).mpr hnone
    have hmod : (finalCollector sbd comments).is_unsafe_module = false := by
      unfold StrictCountCollector.is_unsafe_module
      rw [hu, hs, hb, hln]
      rcases hsome with ⟨c, hc, hp⟩ | hsbd
      · have hne : lastMatchLine isStrictComment comments ≠ none := by
          intro hn
          have := (lastMatchLine_eq_none_iff _ _).mp hn c hc
          rw [hp] at this
          cases this
        obtain ⟨l, hl⟩ := Option.ne_none_iff_exists'.mp hne
        simp [hl]
      · simp [hsbd]
    refine ⟨?_, ?_, ?_⟩
    · rw [collect_mode, hmod]
      simp
    · rintro ⟨c, hc, hp⟩
      have hne : lastMatchLine isStrictComment comments ≠ none := by
        intro hn
        have := (lastMatchLine_eq_none_iff _ _).mp hn c hc
        rw [hp] at this
        cases this
      obtain ⟨l, hl⟩ := Option.ne_none_iff_exists'.mp hne
      obtain ⟨c', hc', hp', hline⟩ := lastMatchLine_some_spec _ _ l hl
      refine ⟨c', hc', hp', ?_⟩
      rw [collect_line, hmod]
      simp [hs, hl, hline]
    · intro hnostrict
      have hlstrict : lastMatchLine isStrictComment comments = none :=
        (lastMatchLine_eq_none_iff _ _).mpr hnostrict
      rw [collect_line, hmod]
      simp [hs, hlstrict]
  · intro hnone hnostrict hsbd
    have hln : lastMatchLine isUnsafeComment comments = none :=
      (lastMatchLine_eq_none_iff _ _).mpr hnone
    have hlstrict : lastMatchLine isStrictComment comments = none :=
      (lastMatchLine_eq_none_iff _ _).mpr hnostrict
    have hmod : (finalCollector sbd comments).is_unsafe_module = true := by
      unfold StrictCountCollector.is_unsafe_module
      rw [hu, hs, hb, hln, hlstrict, hsbd]
      simp
    constructor
    · rw [collect_mode, hmod]
      simp
    · rw [collect_line, hmod]
      simp [hu, hln]

/-- Witness for C2 on a one-comment module carrying an unsafe directive,
with `strict_by_default = true`. -/
theorem claim_C2_module_mode_witness :
    (StrictCountCollector.collect true [⟨1, "# pyre-unsafe"⟩]).mode =
        ModuleMode.UNSAFE ∧
      ∃ c ∈ [(⟨1, "# pyre-unsafe"⟩ : Comment)], isUnsafeComment c = true ∧
        (StrictCountCollector.collect true
            [⟨1, "# pyre-unsafe"⟩]).explicit_comment_line = some c.line :=
  (claim_C2_module_mode true [⟨1, "# pyre-unsafe"⟩]).1
    ⟨⟨1, "# pyre-unsafe"⟩, by simp, by decide⟩

/-- C6 counterexample: a module with strict-pattern comments on lines 1
and 2 records line 2 (the last match), not line 1 (the first) as claimed. -/
theorem claim_C6_counterexample :
    isStrictComment ⟨1, "# pyre-strict"⟩ = true ∧
    isStrictComment ⟨2, "# pyre-strict"⟩ = true ∧
    (StrictCountCollector.collect false
        [⟨1, "# pyre-strict"⟩, ⟨2, "# pyre-strict"⟩]).explicit_comment_line =
      some 2 ∧
    (some 2 : Option Nat) ≠ some 1 :=
  ⟨rfl, rfl, rfl, by decide⟩

/-- C6 (amended): with several comments matching the strict pattern
(respectively the unsafe or codeless ignore-all pattern), the recorded
`explicit_strict_comment_line` (respectively `explicit_unsafe_comment_line`)
is the line of the LAST such comment in top-to-bottom traversal order, each
match overwriting the previous one. -/
theorem claim_C6_last_directive_line (sbd : Bool) (comments : List Comment) :
    (finalCollector sbd comments).explicit_strict_comment_line =
      lastMatchLine isStrictComment comments ∧
    (finalCollector sbd comments).explicit_unsafe_comment_line =
      lastMatchLine isUnsafeComment comments :=
  ⟨finalCollector_strict_line sbd comments,
    finalCollector_unsafe_line sbd comments⟩

/-- C7: a comment matching the ignore-all pattern that carries a bracketed
code list never sets the unsafe line, and a module containing only such a
comment resolves, under `strict_by_default = true`, to STRICT with
`explicit_comment_line = none`. -/
theorem claim_C7_ignore_all_by_code (c : Comment)
    (h1 : ignoreAllRegexTest c.value = true)
    (h2 : ignoreAllByCodeRegexTest c.value = true) :
    (∀ self : StrictCountCollector,
      (self.visit_Comment c).explicit_unsafe_comment_line =
        self.explicit_unsafe_comment_line) ∧
    (StrictCountCollector.collect true [c]).mode = ModuleMode.STRICT ∧
    (StrictCountCollector.collect true [c]).explicit_comment_line = none := by
  have hunsafe : isUnsafeComment c = false := by
    unfold isUnsafeComment
    rw [ignore_all_not_unsafe_regex _ h1, h1, h2]
    rfl
  have hstrict : isStrictComment c = false := by
    unfold isStrictComment
    exact ignore_all_not_strict _ h1
  have hmod : (finalCollector true [c]).is_unsafe_module = false := by
    unfold StrictCountCollector.is_unsafe_module
    rw [finalCollector_unsafe_line, finalCollector_strict_line,
      finalCollector_sbd]
    simp [lastMatchLine, hunsafe, hstrict, Option.or]
  refine ⟨?_, ?_, ?_⟩
  · intro self
    rw [visit_Comment_unsafe_line, hunsafe]
    simp
  · rw [collect_mode, hmod]
    simp
  · rw [collect_line, hmod, finalCollector_strict_line]
    simp [lastMatchLine, hstrict, Option.or]

/-- Witness for C7 at the comment of the spec's Example 4. -/
theorem claim_C7_ignore_all_by_code_witness :
    (∀ self : StrictCountCollector,
      (self.visit_Comment ⟨2, "# pyre-ignore-all-errors[56]"⟩).explicit_unsafe_comment_line =
        self.explicit_unsafe_comment_line) ∧
    (StrictCountCollector.collect true
        [⟨2, "# pyre-ignore-all-errors[56]"⟩]).mode = ModuleMode.STRICT ∧
    (StrictCountCollector.collect true
        [⟨2, "# pyre-ignore-all-errors[56]"⟩]).explicit_comment_line = none :=
  claim_C7_ignore_all_by_code ⟨2, "# pyre-ignore-all-errors[56]"⟩
    (by decide) (by decide)

/-- Exiting a define right after entering it restores the context. -/
theorem enter_exit_define (ctx : AnnotationContext) (d : FunctionDef) :
    (ctx.update_for_enter_define d).update_for_exit_define d = ctx := by
  unfold AnnotationContext.update_for_enter_define
    AnnotationContext.update_for_exit_define
  cases h : AnnotationContext.define_includes_staticmethod d <;> simp [h]

/-- Exiting a class right after entering it restores the context. -/
theorem enter_exit_class (ctx : AnnotationContext) (c : ClassDef) :
    (ctx.update_for_enter_class c).update_for_exit_class = ctx := by
  unfold AnnotationContext.update_for_enter_class
    AnnotationContext.update_for_exit_class
  simp

/-- A balanced traversal leaves the context unchanged. -/
theorem walk_restores (t : PyTree) :
    ∀ ctx : AnnotationContext, ctx.walk t = ctx := by
  induction t with
  | leaf => intro ctx; rfl
  | seq a b iha ihb =>
    intro ctx
    simp only [AnnotationContext.walk]
    rw [iha, ihb]
  | underDef d body ih =>
    intro ctx
    simp only [AnnotationContext.walk]
    rw [ih, enter_exit_define]
  | underClass c body ih =>
    intro ctx
    simp only [AnnotationContext.walk]
    rw [ih, enter_exit_class]

/-- C9: exiting a function or class definition right after entering it
restores `define_depth`, `static_define_depth` and the class-name stack to
their prior values, so any balanced enter/exit traversal returns the
context to its initial state. -/
theorem claim_C9_context_balance (ctx : AnnotationContext) (d : FunctionDef)
    (c : ClassDef) (t : PyTree) :
    (ctx.update_for_enter_define d).update_for_exit_define d = ctx ∧
    (ctx.update_for_enter_class c).update_for_exit_class = ctx ∧
    ctx.walk t = ctx :=
  ⟨enter_exit_define ctx d, enter_exit_class ctx c, walk_restores t ctx⟩

/-- C5: after traversing a module, `line_count` is the module range's end
line with a trailing newline, and that end line minus one without one,
whatever the module body was. -/
theorem claim_C5_line_count (tree : PyTree) (module : ModuleNode) :
    (module.has_trailing_newline = true →
      (AnnotationCollector.collectModule tree module).line_count =
        (module.end_line : Int)) ∧
    (module.has_trailing_newline = false →
      (AnnotationCollector.collectModule tree module).line_count =
        (module.end_line : Int) - 1) := by
  unfold AnnotationCollector.collectModule AnnotationCollector.leave_Module
  constructor <;> intro h <;> simp [h]

/-- Witness for C5 on a 4-line module without a trailing newline. -/
theorem claim_C5_line_count_witness :
    (AnnotationCollector.collectModule (.underDef ⟨"f", []⟩ .leaf)
        ⟨4, false⟩).line_count = ((4 : Nat) : Int) - 1 :=
  (claim_C5_line_count (.underDef ⟨"f", []⟩ .leaf) ⟨4, false⟩).2 rfl

/-- Pointwise value of the per-code registry update of one directive. -/
theorem code_update_foldl_apply (line : Nat) (codes : List Int) :
    ∀ (m : Int → List Nat) (c : Int),
      (codes.foldl
        (fun registry x =>
          fun c2 => if c2 = x then registry c2 ++ [line] else registry c2) m) c =
        m c ++ (codes.filter fun x => x = c).map (fun _ => line) := by
  induction codes with
  | nil =>
    intro m c
    simp
  | cons x xs ih =>
    intro m c
    simp only [List.foldl_cons]
    rw [ih]
    by_cases h : x = c
    · subst h
      simp [List.filter_cons]
    · have h' : ¬(c = x) := fun hc => h hc.symm
      simp [List.filter_cons, h, h']

/-- The fold sends exactly the falsy-codes directives to `no_code`, in
traversal order. -/
theorem addSuppression_foldl_no_code (sups : List TypeErrorSuppression) :
    ∀ acc : SuppressionCountResult,
      (sups.foldl addSuppression acc).no_code =
        acc.no_code ++
          ((sups.filter fun s => (suppressionCodes s).isEmpty).map
            TypeErrorSuppression.line) := by
  induction sups with
  | nil =>
    intro acc
    simp
  | cons s rest ih =>
    intro acc
    simp only [List.foldl_cons]
    rw [ih]
    cases he : s.error_codes with
    | none =>
      simp [addSuppression, he, suppressionCodes, List.filter_cons]
    | some codes =>
      cases codes with
      | nil => simp [addSuppression, he, suppressionCodes, List.filter_cons]
      | cons x xs => simp [addSuppression, he, suppressionCodes, List.filter_cons]

/-- The fold appends, for every directive in traversal order, its line once
per occurrence of the code `c` in its code list. -/
theorem addSuppression_foldl_code (sups : List TypeErrorSuppression) :
    ∀ (acc : SuppressionCountResult) (c : Int),
      (sups.foldl addSuppression acc).code c =
        acc.code c ++
          (sups.flatMap fun s =>
            ((suppressionCodes s).filter fun x => x = c).map fun _ => s.line) := by
  induction sups with
  | nil =>
    intro acc c
    simp
  | cons s rest ih =>
    intro acc c
    simp only [List.foldl_cons, List.flatMap_cons]
    rw [ih]
    cases he : s.error_codes with
    | none =>
      simp [addSuppression, he, suppressionCodes]
    | some codes =>
      cases codes with
      | nil => simp [addSuppression, he, suppressionCodes]
      | cons x xs =>
        simp only [addSuppression, he, suppressionCodes]
        rw [code_update_foldl_apply]
        simp [List.append_assoc]

/-- C3: the per-kind suppression count fold sends every directive of the
kind with `codes` equal to `None` or `[]` to `no_code` (one line each, in
top-to-bottom order), and gives every directive with non-empty codes its
line once per code occurrence in the per-code registries, so one directive
with two codes lands in two registries, and equal codes on different lines
accumulate their lines in ascending traversal order. -/
theorem claim_C3_suppression_count (kind : SuppressionKind)
    (sups : List TypeErrorSuppression) :
    (suppressionCountCollect kind sups).no_code =
      (((sups.filter fun s => s.kind = kind).filter fun s =>
        (suppressionCodes s).isEmpty).map TypeErrorSuppression.line) ∧
    ∀ c : Int,
      (suppressionCountCollect kind sups).code c =
        ((sups.filter fun s => s.kind = kind).flatMap fun s =>
          ((suppressionCodes s).filter fun x => x = c).map fun _ => s.line) := by
  unfold suppressionCountCollect
  constructor
  · rw [addSuppression_foldl_no_code]
    simp
  · intro c
    rw [addSuppression_foldl_code]
    simp

/-- C10: every suppression directive of kind TYPE_IGNORE carries
`error_codes = None`, whatever bracketed codes the comment text shows: the
type-ignore pattern has no capture group, so codes are never parsed. -/
theorem claim_C10_type_ignore_codes (node : CommentNode) :
    ∀ sup ∈ suppression_from_comment node,
      sup.kind = SuppressionKind.TYPE_IGNORE → sup.error_codes = none := by
  intro sup hmem hkind
  rw [suppression_from_comment, List.mem_filterMap] at hmem
  obtain ⟨kind, _, hf⟩ := hmem
  obtain ⟨groups, hg, rfl⟩ := Option.map_eq_some'.mp hf
  have hk : kind = SuppressionKind.TYPE_IGNORE := hkind
  subst hk
  unfold suppressionRegexGroups at hg
  obtain ⟨rem, _, hgroups⟩ := Option.map_eq_some'.mp hg
  subst hgroups
  rfl

/-- Witness for C10 at the comment text with a bracketed code. -/
theorem claim_C10_type_ignore_codes_witness :
    (⟨SuppressionKind.TYPE_IGNORE, ⟨⟨1, 0⟩, ⟨1, 17⟩⟩, none⟩ :
      TypeErrorSuppression).error_codes = none :=
  claim_C10_type_ignore_codes ⟨⟨⟨1, 0⟩, ⟨1, 17⟩⟩, "# type: ignore[8]"⟩
    ⟨SuppressionKind.TYPE_IGNORE, ⟨⟨1, 0⟩, ⟨1, 17⟩⟩, none⟩ (by decide) rfl

/-- `parseAllInts` succeeds elementwise when every piece parses. -/
theorem parseAllInts_eq_map :
    ∀ l : List (List Char), (∀ piece ∈ l, (pyInt piece).isSome = true) →
      parseAllInts l = some (l.map fun piece => (pyInt piece).getD 0) := by
  intro l
  induction l with
  | nil =>
    intro _
    rfl
  | cons piece rest ih =>
    intro h
    have ha := h piece (List.mem_cons_self _ _)
    obtain ⟨v, hv⟩ := Option.isSome_iff_exists.mp ha
    have htail := ih fun x hx => h x (List.mem_cons_of_mem _ hx)
    simp [parseAllInts, hv, htail]

/-- `parseAllInts` fails as soon as one piece does. -/
theorem parseAllInts_eq_none :
    ∀ l : List (List Char), (∃ piece ∈ l, pyInt piece = none) →
      parseAllInts l = none := by
  intro l
  induction l with
  | nil =>
    rintro ⟨a, ha, _⟩
    cases ha
  | cons piece rest ih =>
    rintro ⟨x, hx, hfx⟩
    rcases List.mem_cons.mp hx with rfl | hx'
    · simp [parseAllInts, hfx]
    · cases hfa : pyInt piece with
      | none => simp [parseAllInts, hfa]
      | some v => simp [parseAllInts, hfa, ih ⟨x, hx', hfx⟩]

/-- C4 counterexample: in the comment "# pyre-fixme[bad]" a bracket does
follow the marker, and at least one piece of its content fails to parse as
an integer, yet the produced directive has `error_codes = None` rather than
the claimed `[]`: a bracket whose content is not made of digits, spaces and
commas is not captured by the regex group at all. -/
theorem claim_C4_counterexample :
    lastMarkerRemainder (suppressionMarker SuppressionKind.PYRE_FIXME)
        "# pyre-fixme[bad]".data = some "[bad]".data ∧
    "[bad]".data.head? = some '[' ∧
    (suppression_from_comment ⟨⟨⟨3, 0⟩, ⟨3, 17⟩⟩, "# pyre-fixme[bad]"⟩).map
        TypeErrorSuppression.error_codes = [none] ∧
    ([none] : List (Option (List Int))) ≠ [some []] :=
  ⟨rfl, rfl, rfl, by decide⟩

/-- C4 (amended): for every matched pyre-fixme or pyre-ignore directive,
`error_codes` is `None` iff the marker is not immediately followed by a
well-formed bracket (an opening bracket, then only digits, spaces and
commas, then a closing bracket); when such a bracket is captured, the outer
brackets and spaces are stripped, the content split on commas, and
`error_codes` is the parsed integer sequence (order and duplicates
preserved) when every piece parses as an integer, and the empty list `[]`
(with a logged warning, never a raised exception) when some piece fails. -/
theorem claim_C4_error_codes (node : CommentNode) (kind : SuppressionKind)
    (rem : List Char)
    (hkind : kind = SuppressionKind.PYRE_FIXME ∨
      kind = SuppressionKind.PYRE_IGNORE)
    (hrem : lastMarkerRemainder (suppressionMarker kind) node.value.data =
      some rem) :
    ∀ sup ∈ suppression_from_comment node, sup.kind = kind →
      (sup.error_codes = none ↔ bracketGroup rem = none) ∧
      ∀ g, bracketGroup rem = some g →
        ((∀ piece ∈ splitOnComma (pyStripBracketsSpaces g),
            (pyInt piece).isSome = true) →
          sup.error_codes =
            some ((splitOnComma (pyStripBracketsSpaces g)).map
              fun piece => (pyInt piece).getD 0)) ∧
        ((∃ piece ∈ splitOnComma (pyStripBracketsSpaces g),
            pyInt piece = none) →
          sup.error_codes = some []) := by
  intro sup hmem hk
  rw [suppression_from_comment, List.mem_filterMap] at hmem
  obtain ⟨kind', _, hf⟩ := hmem
  obtain ⟨groups, hg, rfl⟩ := Option.map_eq_some'.mp hf
  have hk' : kind' = kind := hk
  subst hk'
  have hgroups : groups = [bracketGroup rem] := by
    rcases hkind with hkF | hkI
    · subst hkF
      unfold suppressionRegexGroups at hg
      obtain ⟨rem', hrem', hgr⟩ := Option.map_eq_some'.mp hg
      rw [hrem] at hrem'
      cases hrem'
      exact hgr.symm
    · subst hkI
      unfold suppressionRegexGroups at hg
      obtain ⟨rem', hrem', hgr⟩ := Option.map_eq_some'.mp hg
      rw [hrem] at hrem'
      cases hrem'
      exact hgr.symm
  subst hgroups
  show (error_codes_from_re_group [bracketGroup rem] = none ↔ _) ∧ _
  constructor
  · unfold error_codes_from_re_group
    cases hb : bracketGroup rem with
    | none => simp
    | some g =>
      simp only
      cases parseAllInts (splitOnComma (pyStripBracketsSpaces g)) <;> simp
  · intro g hbg
    constructor
    · intro hall
      show error_codes_from_re_group [bracketGroup rem] = _
      unfold error_codes_from_re_group
      rw [hbg]
      simp only
      rw [parseAllInts_eq_map _ hall]
    · intro hfail
      show error_codes_from_re_group [bracketGroup rem] = _
      unfold error_codes_from_re_group
      rw [hbg]
      simp only
      rw [parseAllInts_eq_none _ hfail]

/-- Witness for C4 at the comment "# pyre-fixme[3, 4]: msg". -/
theorem claim_C4_error_codes_witness :
    ((⟨SuppressionKind.PYRE_FIXME, ⟨⟨2, 0⟩, ⟨2, 23⟩⟩, some [3, 4]⟩ :
        TypeErrorSuppression).error_codes = none ↔
      bracketGroup "[3, 4]: msg".data = none) ∧
    ∀ g, bracketGroup "[3, 4]: msg".data = some g →
      ((∀ piece ∈ splitOnComma (pyStripBracketsSpaces g),
          (pyInt piece).isSome = true) →
        (⟨SuppressionKind.PYRE_FIXME, ⟨⟨2, 0⟩, ⟨2, 23⟩⟩, some [3, 4]⟩ :
          TypeErrorSuppression).error_codes =
          some ((splitOnComma (pyStripBracketsSpaces g)).map
            fun piece => (pyInt piece).getD 0)) ∧
      ((∃ piece ∈ splitOnComma (pyStripBracketsSpaces g),
          pyInt piece = none) →
        (⟨SuppressionKind.PYRE_FIXME, ⟨⟨2, 0⟩, ⟨2, 23⟩⟩, some [3, 4]⟩ :
          TypeErrorSuppression).error_codes = some []) :=
  claim_C4_error_codes ⟨⟨⟨2, 0⟩, ⟨2, 23⟩⟩, "# pyre-fixme[3, 4]: msg"⟩
    SuppressionKind.PYRE_FIXME "[3, 4]: msg".data (Or.inl rfl) rfl
    ⟨SuppressionKind.PYRE_FIXME, ⟨⟨2, 0⟩, ⟨2, 23⟩⟩, some [3, 4]⟩
    (by decide) rfl

/-- When every supplied path resolves under the root, the loop returns the
accumulated set extended with all resolved paths. -/
theorem collectLoop_ok (cwd root : PyPath) :
    ∀ (given : List PyPath) (acc : Finset PyPath),
      (∀ p ∈ given, inParents root (resolvePath cwd p) = true) →
      collectLoop cwd root given acc =
        .ok (acc ∪ (given.map (resolvePath cwd)).toFinset) := by
  intro given
  induction given with
  | nil =>
    intro acc _
    simp [collectLoop]
  | cons p rest ih =>
    intro acc h
    have hp := h p (List.mem_cons_self _ _)
    have htail := ih (insert (resolvePath cwd p) acc)
      fun x hx => h x (List.mem_cons_of_mem _ hx)
    simp only [collectLoop, hp, if_pos]
    rw [htail]
    congr 1
    simp [Finset.insert_union, List.toFinset_cons, Finset.union_insert]

/-- When some supplied path does not resolve under the root, the loop
raises on the first such path. -/
theorem collectLoop_error (cwd root : PyPath) :
    ∀ (given : List PyPath) (acc : Finset PyPath),
      (∃ p ∈ given, inParents root (resolvePath cwd p) = false) →
      ∃ q ∈ given, inParents root (resolvePath cwd q) = false ∧
        collectLoop cwd root given acc = .error q := by
  intro given
  induction given with
  | nil =>
    rintro acc ⟨p, hp, _⟩
    cases hp
  | cons p rest ih =>
    rintro acc ⟨x, hx, hfx⟩
    cases hp : inParents root (resolvePath cwd p) with
    | false =>
      exact ⟨p, List.mem_cons_self _ _, hp, by simp [collectLoop, hp]⟩
    | true =>
      have hx' : x ∈ rest := by
        rcases List.mem_cons.mp hx with rfl | hx'
        · rw [hp] at hfx
          cases hfx
        · exact hx'
      obtain ⟨q, hq, hfq, heq⟩ :=
        ih (insert (resolvePath cwd p) acc) ⟨x, hx', hfx⟩
      refine ⟨q, List.mem_cons_of_mem _ hq, hfq, ?_⟩
      simp [collectLoop, hp, heq]

/-- C8 counterexample: with an empty (but supplied) path list the function
returns the empty set, not the singleton of the root as claimed; only a
`None` argument yields the root singleton. -/
theorem claim_C8_counterexample :
    get_paths_to_collect ⟨true, []⟩ (some []) ⟨true, ["proj"]⟩ =
      .ok (∅ : Finset PyPath) ∧
    (∅ : Finset PyPath) ≠ ({⟨true, ["proj"]⟩} : Finset PyPath) :=
  ⟨rfl, by decide⟩

/-- C8 (amended): `get_paths_to_collect` returns `{root}` exactly when
`paths` is unset (`None`); for a supplied list — the empty list yielding
the empty set — it returns the deduplicated set of the supplied paths
resolved to absolute form against the working directory, and raises the
path-outside-project error iff some resolved path is not strictly nested
under the root. -/
theorem claim_C8_paths_to_collect (cwd root : PyPath) :
    get_paths_to_collect cwd none root = .ok {root} ∧
    ∀ given : List PyPath,
      ((∀ p ∈ given, inParents root (resolvePath cwd p) = true) →
        get_paths_to_collect cwd (some given) root =
          .ok (given.map (resolvePath cwd)).toFinset) ∧
      ((∃ p ∈ given, inParents root (resolvePath cwd p) = false) →
        ∃ q ∈ given, inParents root (resolvePath cwd q) = false ∧
          get_paths_to_collect cwd (some given) root = .error q) := by
  refine ⟨rfl, fun given => ⟨?_, ?_⟩⟩
  · intro h
    show collectLoop cwd root given ∅ = _
    rw [collectLoop_ok cwd root given ∅ h]
    rw [Finset.empty_union]
  · intro h
    exact collectLoop_error cwd root given ∅ h

/-- Witness for C8: one relative path resolving under the root. -/
theorem claim_C8_paths_to_collect_witness :
    get_paths_to_collect ⟨true, []⟩ (some [⟨false, ["proj", "a.py"]⟩])
        ⟨true, ["proj"]⟩ =
      .ok ([(⟨false, ["proj", "a.py"]⟩ : PyPath)].map
        (resolvePath ⟨true, []⟩)).toFinset :=
  ((claim_C8_paths_to_collect ⟨true, []⟩ ⟨true, ["proj"]⟩).2
    [⟨false, ["proj", "a.py"]⟩]).1 (by decide)
